import Mathlib

set_option autoImplicit false

namespace Budget

/-!
Shallow embedding of the `budget` personal-finance web client
(frontend/src: api/client.ts, types.ts, pages/TransactionsPage.tsx,
App.tsx, components/Sidebar.tsx), together with spec-modelled pieces of
the Python backend that is not part of the frontend sources
(the recurring-charge detector and the CSV-import enrichment job).
-/

/-! ## URLSearchParams model

A `URLSearchParams` value is an ordered list of key/value pairs.
`set` replaces the first entry with a matching key, deletes the other
matching entries, and appends when the key is absent; `get` returns the
value of the first matching entry.
-/

abbrev Params := List (String × String)

def eraseKey (k : String) : Params → Params
  | [] => []
  | e :: rest => if e.1 == k then eraseKey k rest else e :: eraseKey k rest

def setParam (ps : Params) (k v : String) : Params :=
  match ps with
  | [] => [(k, v)]
  | e :: rest =>
    if e.1 == k then (k, v) :: eraseKey k rest
    else e :: setParam rest k v

def getParam : Params → String → Option String
  | [], _ => none
  | e :: rest, k => if e.1 == k then some e.2 else getParam rest k

def countKey : Params → String → Nat
  | [], _ => 0
  | e :: rest, k => (if e.1 == k then 1 else 0) + countKey rest k

@[simp] theorem getParam_nil (k : String) : getParam [] k = none := rfl

@[simp] theorem countKey_nil (k : String) : countKey [] k = 0 := rfl

theorem getParam_eraseKey (k k' : String) (ps : Params) (h : k' ≠ k) :
    getParam (eraseKey k ps) k' = getParam ps k' := by
  induction ps with
  | nil => rfl
  | cons e rest ih =>
    have hkk' : ¬ k = k' := fun hc => h hc.symm
    by_cases hk : e.1 = k
    · have he : ¬ e.1 = k' := by rw [hk]; exact hkk'
      simp [eraseKey, getParam, hk, he, hkk', ih]
    · by_cases hk' : e.1 = k'
      · simp [eraseKey, getParam, hk, hk', h]
      · simp [eraseKey, getParam, hk, hk', ih]

theorem countKey_eraseKey_self (k : String) (ps : Params) :
    countKey (eraseKey k ps) k = 0 := by
  induction ps with
  | nil => rfl
  | cons e rest ih =>
    by_cases hk : e.1 = k
    · simp [eraseKey, hk, ih]
    · simp [eraseKey, countKey, hk, ih]

theorem countKey_eraseKey_ne (k k' : String) (ps : Params) (h : k' ≠ k) :
    countKey (eraseKey k ps) k' = countKey ps k' := by
  induction ps with
  | nil => rfl
  | cons e rest ih =>
    have hkk' : ¬ k = k' := fun hc => h hc.symm
    by_cases hk : e.1 = k
    · have he : ¬ e.1 = k' := by rw [hk]; exact hkk'
      simp [eraseKey, countKey, hk, he, hkk', ih]
    · by_cases hk' : e.1 = k'
      · simp [eraseKey, countKey, hk, hk', h, ih]
      · simp [eraseKey, countKey, hk, hk', ih]

theorem getParam_setParam_self (ps : Params) (k v : String) :
    getParam (setParam ps k v) k = some v := by
  induction ps with
  | nil => simp [setParam, getParam]
  | cons e rest ih =>
    by_cases hk : e.1 = k
    · simp [setParam, hk, getParam]
    · simp [setParam, hk, getParam, ih]

theorem getParam_setParam_ne (ps : Params) (k v k' : String) (h : k' ≠ k) :
    getParam (setParam ps k v) k' = getParam ps k' := by
  induction ps with
  | nil =>
    have : ¬ k = k' := fun hc => h hc.symm
    simp [setParam, getParam, this]
  | cons e rest ih =>
    by_cases hk : e.1 = k
    · have hkk' : ¬ k = k' := fun hc => h hc.symm
      have he : ¬ e.1 = k' := by rw [hk]; exact hkk'
      simp [setParam, hk, getParam, hkk', he, getParam_eraseKey k k' rest h]
    · by_cases hk' : e.1 = k'
      · simp [setParam, hk, getParam, hk', h]
      · simp [setParam, hk, getParam, hk', ih]

theorem getParam_setParam (ps : Params) (k v k' : String) :
    getParam (setParam ps k v) k' =
      if k = k' then some v else getParam ps k' := by
  by_cases h : k = k'
  · subst h; simp [getParam_setParam_self]
  · simp [h, getParam_setParam_ne ps k v k' (fun hc => h hc.symm)]

theorem countKey_setParam_self (ps : Params) (k v : String) :
    countKey (setParam ps k v) k = 1 := by
  induction ps with
  | nil => simp [setParam, countKey]
  | cons e rest ih =>
    by_cases hk : e.1 = k
    · simp [setParam, hk, countKey, countKey_eraseKey_self]
    · simp [setParam, hk, countKey, ih]

theorem countKey_setParam_ne (ps : Params) (k v k' : String) (h : k' ≠ k) :
    countKey (setParam ps k v) k' = countKey ps k' := by
  induction ps with
  | nil =>
    have : ¬ k = k' := fun hc => h hc.symm
    simp [setParam, countKey, this]
  | cons e rest ih =>
    by_cases hk : e.1 = k
    · have hkk' : ¬ k = k' := fun hc => h hc.symm
      have he : ¬ e.1 = k' := by rw [hk]; exact hkk'
      simp [setParam, hk, countKey, hkk', he, countKey_eraseKey_ne k k' rest h]
    · by_cases hk' : e.1 = k'
      · simp [setParam, hk, countKey, hk', h, ih]
      · simp [setParam, hk, countKey, hk', ih]

theorem countKey_setParam (ps : Params) (k v k' : String) :
    countKey (setParam ps k v) k' =
      if k = k' then 1 else countKey ps k' := by
  by_cases h : k = k'
  · subst h; simp [countKey_setParam_self]
  · simp [h, countKey_setParam_ne ps k v k' (fun hc => h hc.symm)]

/-! ## TransactionsPage filter form (pages/TransactionsPage.tsx)

`FormFilters` is the draft filter form: all thirteen fields are strings
(`EMPTY_FILTERS` holds the empty string everywhere).  `buildParams`
writes the applied filters plus the sort into the URL, omitting empty
fields and the default sort (`sort_by` "date", `sort_dir` "desc");
`filtersFromParams` reads the form back, turning a missing key into the
empty string.
-/

structure FormFilters where
  date_from : String
  date_to : String
  merchant : String
  description : String
  amount_min : String
  amount_max : String
  category : String
  subcategory : String
  account : String
  import_id : String
  is_recurring : String
  uncategorized : String
  cardholder : String
deriving DecidableEq, Repr

def EMPTY_FILTERS : FormFilters :=
  ⟨"", "", "", "", "", "", "", "", "", "", "", "", ""⟩

inductive SortKey where
  | date | amount | description | merchant | category | account
deriving DecidableEq, Repr

def sortKeyStr : SortKey → String
  | .date => "date"
  | .amount => "amount"
  | .description => "description"
  | .merchant => "merchant"
  | .category => "category"
  | .account => "account"

inductive SortDir where
  | asc | desc
deriving DecidableEq, Repr

def sortDirStr : SortDir → String
  | .asc => "asc"
  | .desc => "desc"

/-- One line of `buildParams`: `if (f.x) p.set(k, f.x)` — a JavaScript
string is truthy exactly when it is non-empty. -/
def condSet (ps : Params) (k v : String) : Params :=
  if v = "" then ps else setParam ps k v

def buildParams (f : FormFilters) (sb : SortKey) (sd : SortDir) : Params :=
  let p : Params := []
  let p := condSet p "date_from" f.date_from
  let p := condSet p "date_to" f.date_to
  let p := condSet p "merchant" f.merchant
  let p := condSet p "description" f.description
  let p := condSet p "amount_min" f.amount_min
  let p := condSet p "amount_max" f.amount_max
  let p := condSet p "category" f.category
  let p := condSet p "subcategory" f.subcategory
  let p := condSet p "account" f.account
  let p := condSet p "import_id" f.import_id
  let p := condSet p "is_recurring" f.is_recurring
  let p := condSet p "uncategorized" f.uncategorized
  let p := condSet p "cardholder" f.cardholder
  let p := if sb = SortKey.date then p else setParam p "sort_by" (sortKeyStr sb)
  let p := if sd = SortDir.desc then p else setParam p "sort_dir" (sortDirStr sd)
  p

def filtersFromParams (p : Params) : FormFilters where
  date_from := (getParam p "date_from").getD ""
  date_to := (getParam p "date_to").getD ""
  merchant := (getParam p "merchant").getD ""
  description := (getParam p "description").getD ""
  amount_min := (getParam p "amount_min").getD ""
  amount_max := (getParam p "amount_max").getD ""
  category := (getParam p "category").getD ""
  subcategory := (getParam p "subcategory").getD ""
  account := (getParam p "account").getD ""
  import_id := (getParam p "import_id").getD ""
  is_recurring := (getParam p "is_recurring").getD ""
  uncategorized := (getParam p "uncategorized").getD ""
  cardholder := (getParam p "cardholder").getD ""

/-- TransactionsPage: `const sortBy = (searchParams.get("sort_by") ?? "date") as SortKey`. -/
def readSortBy (p : Params) : String :=
  (getParam p "sort_by").getD "date"

/-- TransactionsPage: `const sortDir = (searchParams.get("sort_dir") ?? "desc")`. -/
def readSortDir (p : Params) : String :=
  (getParam p "sort_dir").getD "desc"

theorem getParam_condSet (ps : Params) (k v k' : String) :
    getParam (condSet ps k v) k' =
      if v = "" then getParam ps k'
      else if k = k' then some v else getParam ps k' := by
  unfold condSet
  split
  · rfl
  · exact getParam_setParam ps k v k'

theorem ite_empty_string (s : String) : (if s = "" then "" else s) = s := by
  by_cases h : s = "" <;> simp [h]

theorem c8_roundtrip_filters (f : FormFilters) (sb : SortKey) (sd : SortDir) :
    filtersFromParams (buildParams f sb sd) = f := by
  obtain ⟨d1, d2, d3, d4, d5, d6, d7, d8, d9, d10, d11, d12, d13⟩ := f
  cases sb <;> cases sd <;>
    simp [buildParams, filtersFromParams, getParam_condSet, getParam_setParam,
      apply_ite (fun o => Option.getD o ""), ite_empty_string]

theorem c8_roundtrip_sort_by (f : FormFilters) (sb : SortKey) (sd : SortDir) :
    readSortBy (buildParams f sb sd) = sortKeyStr sb := by
  cases sb <;> cases sd <;>
    simp [buildParams, readSortBy, sortKeyStr, getParam_condSet, getParam_setParam]

theorem c8_roundtrip_sort_dir (f : FormFilters) (sb : SortKey) (sd : SortDir) :
    readSortDir (buildParams f sb sd) = sortDirStr sd := by
  cases sb <;> cases sd <;>
    simp [buildParams, readSortDir, sortDirStr, getParam_condSet, getParam_setParam]

/-- C8: the transaction filter URL encoding round-trips.  For every form
value `f`, sort key `sb` and sort direction `sd`, reading the URL built
by `buildParams` back through `filtersFromParams` returns `f` exactly
(empty fields are omitted from the URL and read back as the empty
string), and the defaults used when reading the sort back ("date" and
"desc") are exactly the values `buildParams` omits, so the applied sort
also survives the URL unchanged. -/
theorem filter_url_roundtrip (f : FormFilters) (sb : SortKey) (sd : SortDir) :
    filtersFromParams (buildParams f sb sd) = f ∧
    readSortBy (buildParams f sb sd) = sortKeyStr sb ∧
    readSortDir (buildParams f sb sd) = sortDirStr sd :=
  ⟨c8_roundtrip_filters f sb sd, c8_roundtrip_sort_by f sb sd,
    c8_roundtrip_sort_dir f sb sd⟩

/-! ## API client query strings (api/client.ts)

Every list operation builds its query string the same way:

    const params = new URLSearchParams();
    for (const [key, val] of Object.entries(filters)) {
      if (val !== undefined && val !== "") params.set(key, String(val));
    }

A filter field is modelled as `Option JsVal` (`none` = the property is
undefined); `Object.entries` yields the fields in declaration order.
-/

inductive JsVal where
  | s (v : String)
  | n (v : Int)
  | b (v : Bool)
deriving DecidableEq, Repr

/-- JavaScript `String(val)` for the values that occur in filters. -/
def JsVal.toStr : JsVal → String
  | .s v => v
  | .n v => toString v
  | .b true => "true"
  | .b false => "false"

/-- One iteration of the loop body: skip `undefined` and `""`
(strict `!==`: only the string `""` is skipped, not `0` or `false`),
otherwise `params.set(key, String(val))`. -/
def addEntry (ps : Params) (e : String × Option JsVal) : Params :=
  match e.2 with
  | none => ps
  | some v => if v = JsVal.s "" then ps else setParam ps e.1 v.toStr

def buildQuery (entries : List (String × Option JsVal)) : Params :=
  entries.foldl addEntry []

/-- `params.toString()`, without percent-encoding (no claim depends on it). -/
def paramsToString (ps : Params) : String :=
  String.intercalate "&" (ps.map (fun e => e.1 ++ "=" ++ e.2))

/-- `` `${BASE}${path}${qs ? `?${qs}` : ""}` `` with `BASE = "/api"`. -/
def apiUrl (path : String) (ps : Params) : String :=
  let qs := paramsToString ps
  "/api" ++ path ++ (if qs = "" then "" else "?" ++ qs)

theorem addEntry_ne (ps : Params) (ek : String) (ev : Option JsVal)
    (k : String) (hk : k ≠ ek) :
    countKey (addEntry ps (ek, ev)) k = countKey ps k ∧
    getParam (addEntry ps (ek, ev)) k = getParam ps k := by
  cases ev with
  | none => exact ⟨rfl, rfl⟩
  | some v =>
    unfold addEntry
    by_cases hv : v = JsVal.s ""
    · simp [hv]
    · simp [hv, countKey_setParam_ne ps ek v.toStr k hk,
        getParam_setParam_ne ps ek v.toStr k hk]

theorem foldl_addEntry_not_mem (entries : List (String × Option JsVal))
    (ps : Params) (k : String) (h : k ∉ entries.map Prod.fst) :
    countKey (entries.foldl addEntry ps) k = countKey ps k ∧
    getParam (entries.foldl addEntry ps) k = getParam ps k := by
  induction entries generalizing ps with
  | nil => exact ⟨rfl, rfl⟩
  | cons e rest ih =>
    obtain ⟨ek, ev⟩ := e
    simp only [List.map_cons, List.mem_cons, not_or] at h
    obtain ⟨hk, hrest⟩ := h
    have step := addEntry_ne ps ek ev k hk
    have tail := ih (addEntry ps (ek, ev)) hrest
    rw [List.foldl_cons]
    exact ⟨tail.1.trans step.1, tail.2.trans step.2⟩

theorem foldl_addEntry_set (entries : List (String × Option JsVal))
    (ps : Params) (k : String) (v : JsVal)
    (hnd : (entries.map Prod.fst).Nodup)
    (hmem : (k, some v) ∈ entries) (hv : v ≠ JsVal.s "") :
    countKey (entries.foldl addEntry ps) k = 1 ∧
    getParam (entries.foldl addEntry ps) k = some v.toStr := by
  induction entries generalizing ps with
  | nil => cases hmem
  | cons e rest ih =>
    obtain ⟨ek, ev⟩ := e
    simp only [List.map_cons, List.nodup_cons] at hnd
    rw [List.foldl_cons]
    rcases List.mem_cons.mp hmem with hhead | htail
    · obtain ⟨hek, hev⟩ := Prod.mk.inj hhead
      subst hek
      subst hev
      have hstep : addEntry ps (k, some v) = setParam ps k v.toStr := by
        simp [addEntry, hv]
      rw [hstep]
      have tail := foldl_addEntry_not_mem rest (setParam ps k v.toStr) k hnd.1
      exact ⟨tail.1.trans (countKey_setParam_self ps k v.toStr),
        tail.2.trans (getParam_setParam_self ps k v.toStr)⟩
    · exact ih (addEntry ps (ek, ev)) hnd.2 htail

theorem foldl_addEntry_skip (entries : List (String × Option JsVal))
    (ps : Params) (k : String)
    (hnd : (entries.map Prod.fst).Nodup)
    (hmem : (k, none) ∈ entries ∨ (k, some (JsVal.s "")) ∈ entries) :
    countKey (entries.foldl addEntry ps) k = countKey ps k ∧
    getParam (entries.foldl addEntry ps) k = getParam ps k := by
  induction entries generalizing ps with
  | nil => exact ⟨rfl, rfl⟩
  | cons e rest ih =>
    obtain ⟨ek, ev⟩ := e
    simp only [List.map_cons, List.nodup_cons] at hnd
    rw [List.foldl_cons]
    rcases hmem with h1 | h1
    · rcases List.mem_cons.mp h1 with hhead | htail
      · obtain ⟨hek, hev⟩ := Prod.mk.inj hhead
        subst hek
        subst hev
        have hstep : addEntry ps (k, none) = ps := rfl
        rw [hstep]
        exact foldl_addEntry_not_mem rest ps k hnd.1
      · have hk : k ≠ ek := fun hc => hnd.1 (hc ▸ List.mem_map_of_mem Prod.fst htail)
        have step := addEntry_ne ps ek ev k hk
        have tail := ih (addEntry ps (ek, ev)) hnd.2 (Or.inl htail)
        exact ⟨tail.1.trans step.1, tail.2.trans step.2⟩
    · rcases List.mem_cons.mp h1 with hhead | htail
      · obtain ⟨hek, hev⟩ := Prod.mk.inj hhead
        subst hek
        subst hev
        have hstep : addEntry ps (k, some (JsVal.s "")) = ps := by
          simp [addEntry]
        rw [hstep]
        exact foldl_addEntry_not_mem rest ps k hnd.1
      · have hk : k ≠ ek := fun hc => hnd.1 (hc ▸ List.mem_map_of_mem Prod.fst htail)
        have step := addEntry_ne ps ek ev k hk
        have tail := ih (addEntry ps (ek, ev)) hnd.2 (Or.inr htail)
        exact ⟨tail.1.trans step.1, tail.2.trans step.2⟩

/-- The behaviour each list operation's query string construction is
claimed to have: undefined or empty-string fields never appear; every
other field's key appears exactly once, carrying `String(value)`. -/
def QuerySpec (entries : List (String × Option JsVal)) : Prop :=
  (∀ k, ((k, none) ∈ entries ∨ (k, some (JsVal.s "")) ∈ entries) →
    countKey (buildQuery entries) k = 0) ∧
  (∀ k v, (k, some v) ∈ entries → v ≠ JsVal.s "" →
    countKey (buildQuery entries) k = 1 ∧
    getParam (buildQuery entries) k = some v.toStr)

theorem querySpec_of_nodup (entries : List (String × Option JsVal))
    (hnd : (entries.map Prod.fst).Nodup) : QuerySpec entries := by
  constructor
  · intro k hmem
    exact (foldl_addEntry_skip entries [] k hnd hmem).1.trans rfl
  · intro k v hmem hv
    exact foldl_addEntry_set entries [] k v hnd hmem hv

/-! ### The six filter interfaces of api/client.ts -/

structure TransactionFilters where
  date_from : Option String := none
  date_to : Option String := none
  merchant : Option String := none
  description : Option String := none
  amount_min : Option String := none
  amount_max : Option String := none
  category : Option String := none
  subcategory : Option String := none
  account : Option String := none
  import_id : Option Int := none
  is_recurring : Option Bool := none
  uncategorized : Option Bool := none
  cardholder : Option String := none
  after : Option Int := none
  limit : Option Int := none
  sort_by : Option String := none
  sort_dir : Option String := none
deriving DecidableEq, Repr

def TransactionFilters.entries (f : TransactionFilters) :
    List (String × Option JsVal) :=
  [("date_from", f.date_from.map JsVal.s),
    ("date_to", f.date_to.map JsVal.s),
    ("merchant", f.merchant.map JsVal.s),
    ("description", f.description.map JsVal.s),
    ("amount_min", f.amount_min.map JsVal.s),
    ("amount_max", f.amount_max.map JsVal.s),
    ("category", f.category.map JsVal.s),
    ("subcategory", f.subcategory.map JsVal.s),
    ("account", f.account.map JsVal.s),
    ("import_id", f.import_id.map JsVal.n),
    ("is_recurring", f.is_recurring.map JsVal.b),
    ("uncategorized", f.uncategorized.map JsVal.b),
    ("cardholder", f.cardholder.map JsVal.s),
    ("after", f.after.map JsVal.n),
    ("limit", f.limit.map JsVal.n),
    ("sort_by", f.sort_by.map JsVal.s),
    ("sort_dir", f.sort_dir.map JsVal.s)]

structure MerchantFilters where
  name : Option String := none
  location : Option String := none
  after : Option Int := none
  limit : Option Int := none
  sort_by : Option String := none
  sort_dir : Option String := none
deriving DecidableEq, Repr

def MerchantFilters.entries (f : MerchantFilters) :
    List (String × Option JsVal) :=
  [("name", f.name.map JsVal.s),
    ("location", f.location.map JsVal.s),
    ("after", f.after.map JsVal.n),
    ("limit", f.limit.map JsVal.n),
    ("sort_by", f.sort_by.map JsVal.s),
    ("sort_dir", f.sort_dir.map JsVal.s)]

structure CategoryFilters where
  date_from : Option String := none
  date_to : Option String := none
  category : Option String := none
  subcategory : Option String := none
  sort_by : Option String := none
  sort_dir : Option String := none
deriving DecidableEq, Repr

def CategoryFilters.entries (f : CategoryFilters) :
    List (String × Option JsVal) :=
  [("date_from", f.date_from.map JsVal.s),
    ("date_to", f.date_to.map JsVal.s),
    ("category", f.category.map JsVal.s),
    ("subcategory", f.subcategory.map JsVal.s),
    ("sort_by", f.sort_by.map JsVal.s),
    ("sort_dir", f.sort_dir.map JsVal.s)]

structure AccountFilters where
  name : Option String := none
  institution : Option String := none
  account_type : Option String := none
  after : Option Int := none
  limit : Option Int := none
  sort_by : Option String := none
  sort_dir : Option String := none
deriving DecidableEq, Repr

def AccountFilters.entries (f : AccountFilters) :
    List (String × Option JsVal) :=
  [("name", f.name.map JsVal.s),
    ("institution", f.institution.map JsVal.s),
    ("account_type", f.account_type.map JsVal.s),
    ("after", f.after.map JsVal.n),
    ("limit", f.limit.map JsVal.n),
    ("sort_by", f.sort_by.map JsVal.s),
    ("sort_dir", f.sort_dir.map JsVal.s)]

structure ImportFilters where
  filename : Option String := none
  account : Option String := none
  after : Option Int := none
  limit : Option Int := none
  sort_by : Option String := none
  sort_dir : Option String := none
deriving DecidableEq, Repr

def ImportFilters.entries (f : ImportFilters) :
    List (String × Option JsVal) :=
  [("filename", f.filename.map JsVal.s),
    ("account", f.account.map JsVal.s),
    ("after", f.after.map JsVal.n),
    ("limit", f.limit.map JsVal.n),
    ("sort_by", f.sort_by.map JsVal.s),
    ("sort_dir", f.sort_dir.map JsVal.s)]

structure CardHolderFilters where
  name : Option String := none
  card_number : Option String := none
  after : Option Int := none
  limit : Option Int := none
  sort_by : Option String := none
  sort_dir : Option String := none
deriving DecidableEq, Repr

def CardHolderFilters.entries (f : CardHolderFilters) :
    List (String × Option JsVal) :=
  [("name", f.name.map JsVal.s),
    ("card_number", f.card_number.map JsVal.s),
    ("after", f.after.map JsVal.n),
    ("limit", f.limit.map JsVal.n),
    ("sort_by", f.sort_by.map JsVal.s),
    ("sort_dir", f.sort_dir.map JsVal.s)]

def listTransactionsQuery (f : TransactionFilters) : Params :=
  buildQuery f.entries

def listTransactionsUrl (f : TransactionFilters) : String :=
  apiUrl "/transactions" (listTransactionsQuery f)

def listMerchantsQuery (f : MerchantFilters) : Params :=
  buildQuery f.entries

def listMerchantsUrl (f : MerchantFilters) : String :=
  apiUrl "/merchants" (listMerchantsQuery f)

def listCategoriesQuery (f : CategoryFilters) : Params :=
  buildQuery f.entries

def listCategoriesUrl (f : CategoryFilters) : String :=
  apiUrl "/categories" (listCategoriesQuery f)

def listAccountsQuery (f : AccountFilters) : Params :=
  buildQuery f.entries

def listAccountsUrl (f : AccountFilters) : String :=
  apiUrl "/accounts" (listAccountsQuery f)

def listImportsQuery (f : ImportFilters) : Params :=
  buildQuery f.entries

def listImportsUrl (f : ImportFilters) : String :=
  apiUrl "/imports" (listImportsQuery f)

def listCardHoldersQuery (f : CardHolderFilters) : Params :=
  buildQuery f.entries

def listCardHoldersUrl (f : CardHolderFilters) : String :=
  apiUrl "/cardholders" (listCardHoldersQuery f)

theorem transactionFilters_keys_nodup (f : TransactionFilters) :
    (f.entries.map Prod.fst).Nodup := by
  simp only [TransactionFilters.entries, List.map_cons, List.map_nil]
  decide

theorem merchantFilters_keys_nodup (f : MerchantFilters) :
    (f.entries.map Prod.fst).Nodup := by
  simp only [MerchantFilters.entries, List.map_cons, List.map_nil]
  decide

theorem categoryFilters_keys_nodup (f : CategoryFilters) :
    (f.entries.map Prod.fst).Nodup := by
  simp only [CategoryFilters.entries, List.map_cons, List.map_nil]
  decide

theorem accountFilters_keys_nodup (f : AccountFilters) :
    (f.entries.map Prod.fst).Nodup := by
  simp only [AccountFilters.entries, List.map_cons, List.map_nil]
  decide

theorem importFilters_keys_nodup (f : ImportFilters) :
    (f.entries.map Prod.fst).Nodup := by
  simp only [ImportFilters.entries, List.map_cons, List.map_nil]
  decide

theorem cardHolderFilters_keys_nodup (f : CardHolderFilters) :
    (f.entries.map Prod.fst).Nodup := by
  simp only [CardHolderFilters.entries, List.map_cons, List.map_nil]
  decide

/-- C9: for every list operation (`listTransactions`, `listMerchants`,
`listCategories`, `listAccounts`, `listImports`, `listCardHolders`) and
every filter object, a filter key whose value is undefined or the empty
string never appears in the query string, every other key appears
exactly once with `String(value)` as its value, and calling with no
filters produces a request URL with no query string at all. -/
theorem list_operation_query_strings :
    (∀ f : TransactionFilters, QuerySpec f.entries) ∧
    (∀ f : MerchantFilters, QuerySpec f.entries) ∧
    (∀ f : CategoryFilters, QuerySpec f.entries) ∧
    (∀ f : AccountFilters, QuerySpec f.entries) ∧
    (∀ f : ImportFilters, QuerySpec f.entries) ∧
    (∀ f : CardHolderFilters, QuerySpec f.entries) ∧
    listTransactionsUrl {} = "/api/transactions" ∧
    listMerchantsUrl {} = "/api/merchants" ∧
    listCategoriesUrl {} = "/api/categories" ∧
    listAccountsUrl {} = "/api/accounts" ∧
    listImportsUrl {} = "/api/imports" ∧
    listCardHoldersUrl {} = "/api/cardholders" :=
  ⟨fun f => querySpec_of_nodup f.entries (transactionFilters_keys_nodup f),
    fun f => querySpec_of_nodup f.entries (merchantFilters_keys_nodup f),
    fun f => querySpec_of_nodup f.entries (categoryFilters_keys_nodup f),
    fun f => querySpec_of_nodup f.entries (accountFilters_keys_nodup f),
    fun f => querySpec_of_nodup f.entries (importFilters_keys_nodup f),
    fun f => querySpec_of_nodup f.entries (cardHolderFilters_keys_nodup f),
    rfl, rfl, rfl, rfl, rfl, rfl⟩

/-- C9 witness: the spec evaluated on the concrete filter object of the
client test suite (`{ description: "coffee", merchant: "Starbucks",
limit: 25 }` plus an explicitly empty `category`): the set keys appear
exactly once with their stringified values and the empty or undefined
keys are absent. -/
theorem list_operation_query_strings_witness :
    countKey (listTransactionsQuery
      { description := some "coffee", merchant := some "Starbucks",
        limit := some 25, category := some "" }) "merchant" = 1 ∧
    getParam (listTransactionsQuery
      { description := some "coffee", merchant := some "Starbucks",
        limit := some 25, category := some "" }) "limit" = some "25" ∧
    countKey (listTransactionsQuery
      { description := some "coffee", merchant := some "Starbucks",
        limit := some 25, category := some "" }) "category" = 0 ∧
    countKey (listTransactionsQuery
      { description := some "coffee", merchant := some "Starbucks",
        limit := some 25, category := some "" }) "date_from" = 0 := by
  have h := list_operation_query_strings.1
    { description := some "coffee", merchant := some "Starbucks",
      limit := some 25, category := some "" }
  refine ⟨(h.2 "merchant" (JsVal.s "Starbucks") (by decide) (by decide)).1,
    (h.2 "limit" (JsVal.n 25) (by decide) (by decide)).2,
    h.1 "category" (Or.inr (by decide)),
    h.1 "date_from" (Or.inl (by decide))⟩

/-! ## handleResponse (api/client.ts)

    async function handleResponse<T>(res: Response): Promise<T> {
      if (!res.ok) {
        let detail = res.statusText;
        try {
          const body = await res.json();
          detail = body.detail ?? detail;
        } catch {}
        throw new ApiResponseError(res.status, detail);
      }
      return res.json() as Promise<T>;
    }

A response body is `none` when it is not valid JSON (`res.json()`
rejects), otherwise `some` of a JSON object with an optional string
`detail` field and an uninterpreted remainder.
-/

structure JsonBody where
  detail : Option String
  payload : String
deriving DecidableEq, Repr

structure HttpResponse where
  ok : Bool
  status : Nat
  statusText : String
  body : Option JsonBody
deriving DecidableEq, Repr

structure ApiResponseError where
  status : Nat
  detail : String
deriving DecidableEq, Repr

/-- `message` and `name` set by the `ApiResponseError` constructor. -/
def ApiResponseError.message (e : ApiResponseError) : String :=
  "API " ++ toString e.status ++ ": " ++ e.detail

inductive FetchOutcome where
  | ok (body : JsonBody)
  | apiError (e : ApiResponseError)
  | jsonError
deriving DecidableEq, Repr

def handleResponse (res : HttpResponse) : FetchOutcome :=
  if res.ok then
    match res.body with
    | some b => .ok b
    | none => .jsonError
  else
    let detail :=
      match res.body with
      | some b => b.detail.getD res.statusText
      | none => res.statusText
    .apiError ⟨res.status, detail⟩

/-- C2: every response passes through `handleResponse`: when `ok` is
true the parsed JSON body is returned; when `ok` is false an
`ApiResponseError` is thrown whose status is the HTTP status and whose
detail is the body's `detail` field when the body is JSON and carries
one, otherwise the `statusText`; no value is ever returned for a non-ok
response. -/
theorem handleResponse_spec (res : HttpResponse) :
    (res.ok = true → ∀ b, res.body = some b → handleResponse res = .ok b) ∧
    (res.ok = false →
      handleResponse res = .apiError
        ⟨res.status,
          match res.body with
          | some b =>
            match b.detail with
            | some d => d
            | none => res.statusText
          | none => res.statusText⟩) ∧
    (res.ok = false → ∀ b, handleResponse res ≠ .ok b) := by
  refine ⟨?_, ?_, ?_⟩
  · intro hok b hb
    simp [handleResponse, hok, hb]
  · intro hok
    cases hb : res.body with
    | none => simp [handleResponse, hok, hb]
    | some b =>
      cases hd : b.detail with
      | none => simp [handleResponse, hok, hb, hd]
      | some d => simp [handleResponse, hok, hb, hd]
  · intro hok b
    simp [handleResponse, hok]

/-- C2 witness: `handleResponse` applied to the two error responses and
the one success response exercised by the client test suite: a 401 JSON
body with `detail` "Unauthorized" raises `ApiResponseError 401
"Unauthorized"`; a 503 with a non-JSON body falls back to the status
text; a 200 returns its parsed body. -/
theorem handleResponse_spec_witness :
    handleResponse ⟨false, 401, "Unauthorized HTTP", some ⟨some "Unauthorized", ""⟩⟩ =
      .apiError ⟨401, "Unauthorized"⟩ ∧
    handleResponse ⟨false, 503, "Service Unavailable", none⟩ =
      .apiError ⟨503, "Service Unavailable"⟩ ∧
    handleResponse ⟨true, 200, "OK", some ⟨none, "items"⟩⟩ = .ok ⟨none, "items"⟩ := by
  refine ⟨?_, ?_, ?_⟩
  · exact (handleResponse_spec ⟨false, 401, "Unauthorized HTTP",
      some ⟨some "Unauthorized", ""⟩⟩).2.1 rfl
  · exact (handleResponse_spec ⟨false, 503, "Service Unavailable", none⟩).2.1 rfl
  · exact (handleResponse_spec ⟨true, 200, "OK", some ⟨none, "items"⟩⟩).1 rfl _ rfl

/-! ## Cursor pagination of TransactionsPage

`TransactionItem` is the row shape the transactions endpoints exchange
(types.ts, with the `card_number` / `raw_description` fields the
TransactionsPage accesses).  `fetchFirstPage` models the effect on the
page state of a successful first request (it is issued without an
`after` value), `loadMore` the effect of the Load-more button: the guard
is JavaScript `if (!nextCursor) return;`, under which `null` (and the
unreachable cursor `0`) causes no request.  Each function also returns
the list of `after` values of the requests it issued.
-/

structure TransactionItem where
  id : Int
  date : String
  description : String
  amount : String
  account_id : Int
  account : String
  merchant : Option String
  category : Option String
  subcategory : Option String
  notes : Option String
  is_recurring : Bool
  card_number : Option String
  raw_description : Option String
deriving DecidableEq, Repr

structure TransactionsResponse where
  items : List TransactionItem
  has_more : Bool
  next_cursor : Option Int
  total_count : Int
deriving DecidableEq, Repr

structure TxPageState where
  pages : List (List TransactionItem)
  nextCursor : Option Int
  hasMore : Bool
  totalCount : Option Int
deriving DecidableEq, Repr

/-- JavaScript falsiness of `nextCursor : number | null`. -/
def jsFalsyCursor : Option Int → Bool
  | none => true
  | some n => n == 0

def fetchFirstPage (srv : Option Int → TransactionsResponse) :
    TxPageState × List (Option Int) :=
  let r := srv none
  ({ pages := [r.items], nextCursor := r.next_cursor,
     hasMore := r.has_more, totalCount := some r.total_count }, [none])

def loadMore (srv : Option Int → TransactionsResponse) (s : TxPageState) :
    TxPageState × List (Option Int) :=
  if jsFalsyCursor s.nextCursor then (s, [])
  else
    let r := srv s.nextCursor
    ({ pages := s.pages ++ [r.items], nextCursor := r.next_cursor,
       hasMore := r.has_more, totalCount := s.totalCount }, [s.nextCursor])

/-- The first fetch followed by `k` presses of Load more, accumulating
the `after` values of all requests issued. -/
def runLoadMore (srv : Option Int → TransactionsResponse) :
    Nat → TxPageState × List (Option Int)
  | 0 => fetchFirstPage srv
  | k + 1 =>
    let r := runLoadMore srv k
    let m := loadMore srv r.1
    (m.1, r.2 ++ m.2)

theorem runLoadMore_pages (srv : Option Int → TransactionsResponse) (k : Nat) :
    (runLoadMore srv k).1.pages =
      ((runLoadMore srv k).2).map (fun a => (srv a).items) := by
  induction k with
  | zero => rfl
  | succ k ih =>
    by_cases hf : jsFalsyCursor (runLoadMore srv k).1.nextCursor = true
    · simp [runLoadMore, loadMore, hf, ih]
    · simp only [Bool.not_eq_true] at hf
      simp [runLoadMore, loadMore, hf, ih]

theorem runLoadMore_cursor (srv : Option Int → TransactionsResponse) (k : Nat)
    (a : Option Int) (h : (runLoadMore srv k).2.getLast? = some a) :
    (runLoadMore srv k).1.nextCursor = (srv a).next_cursor := by
  induction k with
  | zero =>
    simp only [runLoadMore, fetchFirstPage, List.getLast?_singleton,
      Option.some.injEq] at h
    subst h
    rfl
  | succ k ih =>
    by_cases hf : jsFalsyCursor (runLoadMore srv k).1.nextCursor = true
    · simp only [runLoadMore, loadMore, hf, if_pos, List.append_nil] at h ⊢
      exact ih h
    · simp only [Bool.not_eq_true] at hf
      simp only [runLoadMore, loadMore, hf, Bool.false_eq_true, if_neg,
        not_false_iff, List.getLast?_append, List.getLast?_singleton,
        Option.some.injEq, reduceCtorEq, or_false] at h ⊢
      cases h
      rfl

/-- C1: cursor pagination of the transaction list.  The first page is
requested with no `after` value; `loadMore` with a stored null cursor
performs no request and leaves the pages unchanged; `loadMore` with a
usable cursor issues exactly one request whose `after` equals the stored
`next_cursor` (which, by the cursor-threading part, is the `next_cursor`
returned by the previous response) and appends the fetched items after
the loaded pages; over any run, the loaded pages are exactly the fetched
pages of the issued requests in order. -/
theorem transactions_pagination (srv : Option Int → TransactionsResponse) :
    (fetchFirstPage srv).2 = [none] ∧
    (∀ s : TxPageState, s.nextCursor = none → loadMore srv s = (s, [])) ∧
    (∀ s : TxPageState, jsFalsyCursor s.nextCursor = false →
      loadMore srv s =
        ({ pages := s.pages ++ [(srv s.nextCursor).items],
           nextCursor := (srv s.nextCursor).next_cursor,
           hasMore := (srv s.nextCursor).has_more,
           totalCount := s.totalCount }, [s.nextCursor])) ∧
    (∀ k, (runLoadMore srv k).1.pages =
      ((runLoadMore srv k).2).map (fun a => (srv a).items)) ∧
    (∀ k a, (runLoadMore srv k).2.getLast? = some a →
      (runLoadMore srv k).1.nextCursor = (srv a).next_cursor) := by
  refine ⟨rfl, ?_, ?_, runLoadMore_pages srv, runLoadMore_cursor srv⟩
  · intro s hs
    simp [loadMore, jsFalsyCursor, hs]
  · intro s hs
    simp [loadMore, hs]

def sampleTx (n : Int) : TransactionItem :=
  { id := n, date := "2026-02-10", description := "Coffee shop",
    amount := "-5.50", account_id := 1, account := "Chase Checking",
    merchant := some "Starbucks", category := some "Food",
    subcategory := none, notes := none, is_recurring := false,
    card_number := none, raw_description := none }

def sampleSrv : Option Int → TransactionsResponse
  | none => { items := [sampleTx 1], has_more := true,
              next_cursor := some 2, total_count := 2 }
  | some 2 => { items := [sampleTx 2], has_more := false,
                next_cursor := none, total_count := 2 }
  | some _ => { items := [], has_more := false,
                next_cursor := none, total_count := 2 }

/-- C1 witness: against a two-page server, a load with cursor 2 issues
the request `after = 2` and appends the second page, and a further load
with the null cursor issues nothing and changes nothing. -/
theorem transactions_pagination_witness :
    loadMore sampleSrv
        { pages := [[sampleTx 1]], nextCursor := some 2,
          hasMore := true, totalCount := some 2 } =
      ({ pages := [[sampleTx 1], [sampleTx 2]], nextCursor := none,
         hasMore := false, totalCount := some 2 }, [some 2]) ∧
    loadMore sampleSrv
        { pages := [[sampleTx 1], [sampleTx 2]], nextCursor := none,
          hasMore := false, totalCount := some 2 } =
      ({ pages := [[sampleTx 1], [sampleTx 2]], nextCursor := none,
         hasMore := false, totalCount := some 2 }, []) := by
  constructor
  · exact ((transactions_pagination sampleSrv).2.2.1
      { pages := [[sampleTx 1]], nextCursor := some 2,
        hasMore := true, totalCount := some 2 } rfl).trans (by decide)
  · exact (transactions_pagination sampleSrv).2.1
      { pages := [[sampleTx 1], [sampleTx 2]], nextCursor := none,
        hasMore := false, totalCount := some 2 } rfl

/-! ## AI-backed client operations (api/client.ts, TransactionsPage)

`parseQuery` POSTs `{ query }` to `/api/ai/parse-query`;
`findDuplicateMerchants` POSTs to `/api/ai/find-duplicate-merchants`;
`reEnrichTransactions` POSTs `{ transaction_ids }` to
`/api/transactions/re-enrich`.  On parse success, `handleNlSubmit`
spreads `EMPTY_FILTERS` and copies nine string fields and
`is_recurring` from the parsed filters; `handleBulkReEnrich` replaces
in place the loaded rows whose ids appear in the response.
-/

inductive ReqBody where
  | empty
  | jsonQuery (query : String)
  | jsonTransactionIds (transaction_ids : List Int)
deriving DecidableEq, Repr

structure HttpRequest where
  method : String
  url : String
  body : ReqBody
deriving DecidableEq, Repr

def BASE : String := "/api"

def parseQueryRequest (query : String) : HttpRequest :=
  { method := "POST", url := BASE ++ "/ai/parse-query", body := .jsonQuery query }

def findDuplicateMerchantsRequest : HttpRequest :=
  { method := "POST", url := BASE ++ "/ai/find-duplicate-merchants", body := .empty }

def reEnrichTransactionsRequest (ids : List Int) : HttpRequest :=
  { method := "POST", url := BASE ++ "/transactions/re-enrich",
    body := .jsonTransactionIds ids }

structure ParseQueryResponse where
  filters : TransactionFilters
  explanation : String
deriving DecidableEq, Repr

/-- JavaScript `String(b)` for a boolean. -/
def jsBoolString (b : Bool) : String :=
  if b then "true" else "false"

/-- The merged form `handleNlSubmit` builds from the parsed filters:
spread of `EMPTY_FILTERS` overwritten by the nine string fields and
`is_recurring` (via `String(...)`) of the parsed result. -/
def mergedFilters (parsed : TransactionFilters) : FormFilters :=
  { EMPTY_FILTERS with
    date_from := parsed.date_from.getD ""
    date_to := parsed.date_to.getD ""
    merchant := parsed.merchant.getD ""
    description := parsed.description.getD ""
    amount_min := parsed.amount_min.getD ""
    amount_max := parsed.amount_max.getD ""
    category := parsed.category.getD ""
    subcategory := parsed.subcategory.getD ""
    account := parsed.account.getD ""
    is_recurring :=
      match parsed.is_recurring with
      | some b => jsBoolString b
      | none => "" }

/-- The merge the claim describes, written from the spec's words: every
field of the form is overwritten from the parsed result, with unset
fields becoming empty. -/
def specWholesaleMerge (parsed : TransactionFilters) : FormFilters where
  date_from := parsed.date_from.getD ""
  date_to := parsed.date_to.getD ""
  merchant := parsed.merchant.getD ""
  description := parsed.description.getD ""
  amount_min := parsed.amount_min.getD ""
  amount_max := parsed.amount_max.getD ""
  category := parsed.category.getD ""
  subcategory := parsed.subcategory.getD ""
  account := parsed.account.getD ""
  import_id :=
    match parsed.import_id with
    | some n => toString n
    | none => ""
  is_recurring :=
    match parsed.is_recurring with
    | some b => jsBoolString b
    | none => ""
  uncategorized :=
    match parsed.uncategorized with
    | some b => jsBoolString b
    | none => ""
  cardholder := parsed.cardholder.getD ""

/-- C3 counterexample: on a parsed result that sets `uncategorized`,
the form built by `handleNlSubmit` is not the wholesale overwrite the
claim describes — the `uncategorized` field of the form stays empty
rather than receiving the parsed value "true". -/
theorem nl_merge_not_wholesale :
    mergedFilters { uncategorized := some true } ≠
      specWholesaleMerge { uncategorized := some true } ∧
    (mergedFilters { uncategorized := some true }).uncategorized = "" ∧
    (specWholesaleMerge { uncategorized := some true }).uncategorized = "true" := by
  refine ⟨?_, rfl, rfl⟩
  decide

/-- Row substitution of `handleBulkReEnrich`:
`res.items.find((u) => u.id === r.id) ?? r`. -/
def substRow (resItems : List TransactionItem) (r : TransactionItem) :
    TransactionItem :=
  (resItems.find? (fun u => u.id == r.id)).getD r

def applyReEnrich (pages : List (List TransactionItem))
    (resItems : List TransactionItem) : List (List TransactionItem) :=
  pages.map (fun page => page.map (substRow resItems))

theorem substRow_no_match (resItems : List TransactionItem)
    (r : TransactionItem) (h : ∀ u ∈ resItems, ¬ u.id = r.id) :
    substRow resItems r = r := by
  unfold substRow
  have : resItems.find? (fun u => u.id == r.id) = none := by
    rw [List.find?_eq_none]
    intro u hu
    simpa using h u hu
  rw [this]
  rfl

theorem substRow_match (resItems : List TransactionItem)
    (r : TransactionItem) (h : ∃ u ∈ resItems, u.id = r.id) :
    ∃ u', u' ∈ resItems ∧ u'.id = r.id ∧ substRow resItems r = u' := by
  have hs : (resItems.find? (fun u => u.id == r.id)).isSome := by
    rw [List.find?_isSome]
    obtain ⟨u, hu, hid⟩ := h
    exact ⟨u, hu, by simpa using hid⟩
  obtain ⟨u', hu'⟩ := Option.isSome_iff_exists.mp hs
  refine ⟨u', List.mem_of_find?_eq_some hu', ?_, ?_⟩
  · have := List.find?_some hu'
    simpa using this
  · unfold substRow
    rw [hu']
    rfl

/-- C3 amended: `parseQuery`, `findDuplicateMerchants` and
`reEnrichTransactions` POST to their dedicated endpoints; on parse
success the applied filters are replaced with no dependence on the old
filters — the nine string fields and `is_recurring` are overwritten from
the parsed result with unset fields becoming empty, while `import_id`,
`uncategorized` and `cardholder` are always reset to empty — and the
current sort key and direction are preserved; the loaded rows whose ids
appear in the re-enrich response are replaced in place (by the first
response row with the matching id) and all other rows are unchanged. -/
theorem ai_operations_amended (q : String) (ids : List Int)
    (parsed : TransactionFilters) (sb : SortKey) (sd : SortDir)
    (resItems : List TransactionItem) (r : TransactionItem) :
    parseQueryRequest q = ⟨"POST", "/api/ai/parse-query", .jsonQuery q⟩ ∧
    findDuplicateMerchantsRequest =
      ⟨"POST", "/api/ai/find-duplicate-merchants", .empty⟩ ∧
    reEnrichTransactionsRequest ids =
      ⟨"POST", "/api/transactions/re-enrich", .jsonTransactionIds ids⟩ ∧
    mergedFilters parsed =
      { specWholesaleMerge parsed with
        import_id := "", uncategorized := "", cardholder := "" } ∧
    readSortBy (buildParams (mergedFilters parsed) sb sd) = sortKeyStr sb ∧
    readSortDir (buildParams (mergedFilters parsed) sb sd) = sortDirStr sd ∧
    applyReEnrich [[r]] resItems = [[substRow resItems r]] ∧
    ((∀ u ∈ resItems, ¬ u.id = r.id) → substRow resItems r = r) ∧
    ((∃ u ∈ resItems, u.id = r.id) →
      ∃ u', u' ∈ resItems ∧ u'.id = r.id ∧ substRow resItems r = u') :=
  ⟨rfl, rfl, rfl, rfl,
    c8_roundtrip_sort_by (mergedFilters parsed) sb sd,
    c8_roundtrip_sort_dir (mergedFilters parsed) sb sd,
    rfl,
    substRow_no_match resItems r,
    substRow_match resItems r⟩

/-- C3 witness: a parsed result `{ merchant: "Starbucks" }` yields the
form with only the merchant field set, the default sort survives, and a
re-enrich response containing the row id 1 replaces exactly that row. -/
theorem ai_operations_amended_witness :
    mergedFilters { merchant := some "Starbucks" } =
      { EMPTY_FILTERS with merchant := "Starbucks" } ∧
    readSortBy (buildParams (mergedFilters { merchant := some "Starbucks" })
      SortKey.date SortDir.desc) = "date" ∧
    applyReEnrich [[sampleTx 1, sampleTx 3]] [sampleTx 1] =
      [[sampleTx 1, sampleTx 3]] ∧
    substRow [{ sampleTx 1 with merchant := some "SBUX" }] (sampleTx 1) =
      { sampleTx 1 with merchant := some "SBUX" } := by
  have h := ai_operations_amended "q" [] { merchant := some "Starbucks" }
    SortKey.date SortDir.desc [{ sampleTx 1 with merchant := some "SBUX" }]
    (sampleTx 1)
  refine ⟨by decide, h.2.2.2.2.1.trans rfl, by decide, ?_⟩
  obtain ⟨u', hmem, _, heq⟩ := h.2.2.2.2.2.2.2.2
    ⟨{ sampleTx 1 with merchant := some "SBUX" }, by decide, rfl⟩
  have : u' = { sampleTx 1 with merchant := some "SBUX" } := by
    simpa using hmem
  rw [heq, this]

/-! ## Router (App.tsx) and navigation (components/Sidebar.tsx)

The `Route path="..."` elements registered inside `<Routes>` in
`App.tsx` (the `/` route redirects to `/overview`), and the `to` paths
of the sidebar's `NAV` array.
-/

def appRoutes : List String :=
  ["/", "/overview", "/transactions", "/accounts", "/merchants",
    "/merchants/merge", "/imports", "/recurring", "/monthly",
    "/categories", "/cardholders", "/trends"]

def sidebarNavPaths : List String :=
  ["/overview", "/budgets", "/transactions", "/accounts", "/merchants",
    "/cardholders", "/categories", "/imports", "/recurring", "/monthly",
    "/trends", "/help"]

/-- The entity pages the claim lists as each reachable through a
registered route: transactions, accounts, merchants, card holders,
categories, budgets, imports, recurring charges, and the monthly and
trend reports. -/
def claimedEntityRoutes : List String :=
  ["/transactions", "/accounts", "/merchants", "/cardholders",
    "/categories", "/budgets", "/imports", "/recurring", "/monthly",
    "/trends"]

/-- C4: the router registers a route for every claimed entity page
except `/budgets`: the Budgets page component exists and the sidebar
links to `/budgets`, but `App.tsx` registers no such route, so the
claim's list fails exactly at the budgets entry. -/
theorem budgets_route_missing :
    ("/budgets" ∈ appRoutes) = False ∧
    "/budgets" ∈ sidebarNavPaths ∧
    (claimedEntityRoutes.filter (fun p => !(p == "/budgets"))).all
      (fun p => appRoutes.contains p) = true := by
  refine ⟨by simp [appRoutes], by simp [sidebarNavPaths], by decide⟩

/-! ## Data model record shapes (types.ts)

The `Transaction` and `TransactionItem` interfaces of types.ts, reified
as (field name, nullable) lists in declaration order.  `Transaction` is
the ORM-shaped row (`account_id` non-null, `csv_import_id`,
`merchant_id`, `subcategory_id` nullable); `TransactionItem` is the row
shape the transaction endpoints actually exchange with the client
(`TransactionsResponse.items`).
-/

structure FieldSpec where
  name : String
  nullable : Bool
deriving DecidableEq, Repr

def transactionFields : List FieldSpec :=
  [⟨"id", false⟩, ⟨"account_id", false⟩, ⟨"csv_import_id", true⟩,
    ⟨"date", false⟩, ⟨"description", false⟩, ⟨"amount", false⟩,
    ⟨"merchant_id", true⟩, ⟨"subcategory_id", true⟩, ⟨"notes", true⟩,
    ⟨"created_at", false⟩]

def transactionItemFields : List FieldSpec :=
  [⟨"id", false⟩, ⟨"date", false⟩, ⟨"description", false⟩,
    ⟨"amount", false⟩, ⟨"account_id", false⟩, ⟨"account", false⟩,
    ⟨"merchant", true⟩, ⟨"category", true⟩, ⟨"subcategory", true⟩,
    ⟨"notes", true⟩, ⟨"is_recurring", false⟩]

/-- C6 counterexample: the claim's final clause fails — the reference
fields are not all present on the transaction records exchanged with the
client: `TransactionItem` (the element type of `TransactionsResponse`)
carries none of `csv_import_id`, `merchant_id`, `subcategory_id`. -/
theorem reference_fields_not_on_items :
    ¬ (["csv_import_id", "merchant_id", "subcategory_id"].all
        (fun n => (transactionItemFields.map FieldSpec.name).contains n)) := by
  decide

/-- C6 amended: the `Transaction` model type carries a non-null
`account_id`, a nullable `csv_import_id`, a nullable `merchant_id` and a
nullable `subcategory_id` — the Account → CsvImport → Transaction →
Merchant/Subcategory links of the relational schema; of these reference
fields, only `account_id` is present on the transaction records actually
exchanged with the client (`TransactionItem`), which instead carry the
resolved `merchant`, `category` and `subcategory` names. -/
theorem transaction_reference_fields :
    ⟨"account_id", false⟩ ∈ transactionFields ∧
    ⟨"csv_import_id", true⟩ ∈ transactionFields ∧
    ⟨"merchant_id", true⟩ ∈ transactionFields ∧
    ⟨"subcategory_id", true⟩ ∈ transactionFields ∧
    ⟨"account_id", false⟩ ∈ transactionItemFields ∧
    "csv_import_id" ∉ transactionItemFields.map FieldSpec.name ∧
    "merchant_id" ∉ transactionItemFields.map FieldSpec.name ∧
    "subcategory_id" ∉ transactionItemFields.map FieldSpec.name ∧
    ⟨"merchant", true⟩ ∈ transactionItemFields ∧
    ⟨"category", true⟩ ∈ transactionItemFields ∧
    ⟨"subcategory", true⟩ ∈ transactionItemFields := by
  decide

/-! ## Bulk edit of selected transactions (TransactionsPage)

`handleBulkApply` walks the selected ids one at a time; for each it
looks the row up in `allRows` (the flattened pages captured before the
loop), sends a PATCH whose merchant / category / subcategory / card
number are `updates.x.trim() || tx.x || null` while description and
notes are resent unchanged, replaces the row on success and counts the
failure otherwise; afterwards the selection is cleared when no update
failed, else the failure count is reported.
-/

structure BulkUpdates where
  merchant : String
  category : String
  subcategory : String
  card_number : String
deriving DecidableEq, Repr

structure TransactionUpdateBody where
  description : String
  merchant_name : Option String
  category : Option String
  subcategory : Option String
  notes : Option String
  card_number : Option String
deriving DecidableEq, Repr

/-- JavaScript `s.trim()`: strip leading and trailing whitespace. -/
def jsTrim (s : String) : String :=
  ⟨(((s.toList.dropWhile Char.isWhitespace).reverse.dropWhile
      Char.isWhitespace).reverse)⟩

/-- JavaScript `bulk || cur || null` for `bulk : string`,
`cur : string | null`. -/
def jsOrElse (bulk : String) (cur : Option String) : Option String :=
  if bulk = "" then
    match cur with
    | some c => if c = "" then none else some c
    | none => none
  else some bulk

def bulkBody (u : BulkUpdates) (tx : TransactionItem) : TransactionUpdateBody :=
  { description := tx.description
    merchant_name := jsOrElse (jsTrim u.merchant) tx.merchant
    category := jsOrElse (jsTrim u.category) tx.category
    subcategory := jsOrElse (jsTrim u.subcategory) tx.subcategory
    notes := tx.notes
    card_number := jsOrElse (jsTrim u.card_number) tx.card_number }

def replaceRow (pages : List (List TransactionItem))
    (upd : TransactionItem) : List (List TransactionItem) :=
  pages.map (fun page => page.map (fun r => if r.id == upd.id then upd else r))

structure BulkResult where
  pages : List (List TransactionItem)
  failed : Nat
  requests : List (Int × TransactionUpdateBody)
deriving DecidableEq, Repr

def bulkStep (srv : Int → TransactionUpdateBody → Option TransactionItem)
    (u : BulkUpdates) (allRows : List TransactionItem)
    (acc : BulkResult) (id : Int) : BulkResult :=
  match allRows.find? (fun r => r.id == id) with
  | none => { acc with failed := acc.failed + 1 }
  | some tx =>
    match srv id (bulkBody u tx) with
    | some updated =>
      { acc with
        pages := replaceRow acc.pages updated
        requests := acc.requests ++ [(id, bulkBody u tx)] }
    | none =>
      { acc with
        failed := acc.failed + 1
        requests := acc.requests ++ [(id, bulkBody u tx)] }

def handleBulkApply (srv : Int → TransactionUpdateBody → Option TransactionItem)
    (u : BulkUpdates) (ids : List Int)
    (pages : List (List TransactionItem)) : BulkResult :=
  ids.foldl (bulkStep srv u pages.flatten)
    { pages := pages, failed := 0, requests := [] }

/-- Whether the update of a given id fails: the id is not among the
loaded rows (the `find(...)!` dereference throws inside the `try`), or
the server rejects the PATCH built for it. -/
def failPred (srv : Int → TransactionUpdateBody → Option TransactionItem)
    (u : BulkUpdates) (allRows : List TransactionItem) (id : Int) : Bool :=
  match allRows.find? (fun r => r.id == id) with
  | none => true
  | some tx => (srv id (bulkBody u tx)).isNone

/-- The effect of one id on the pages alone. -/
def pagesStep (srv : Int → TransactionUpdateBody → Option TransactionItem)
    (u : BulkUpdates) (allRows : List TransactionItem)
    (pg : List (List TransactionItem)) (id : Int) :
    List (List TransactionItem) :=
  match allRows.find? (fun r => r.id == id) with
  | none => pg
  | some tx =>
    match srv id (bulkBody u tx) with
    | some updated => replaceRow pg updated
    | none => pg

/-- The request an id gives rise to, when its row is found. -/
def requestOf (u : BulkUpdates) (allRows : List TransactionItem)
    (id : Int) : Option (Int × TransactionUpdateBody) :=
  (allRows.find? (fun r => r.id == id)).map (fun tx => (id, bulkBody u tx))

theorem bulkStep_decompose
    (srv : Int → TransactionUpdateBody → Option TransactionItem)
    (u : BulkUpdates) (allRows : List TransactionItem)
    (acc : BulkResult) (id : Int) :
    (bulkStep srv u allRows acc id).pages = pagesStep srv u allRows acc.pages id ∧
    (bulkStep srv u allRows acc id).failed =
      acc.failed + (if failPred srv u allRows id then 1 else 0) ∧
    (bulkStep srv u allRows acc id).requests =
      acc.requests ++ (requestOf u allRows id).toList := by
  unfold bulkStep pagesStep failPred requestOf
  cases hf : allRows.find? (fun r => r.id == id) with
  | none => simp
  | some tx =>
    cases hs : srv id (bulkBody u tx) with
    | none => simp [hs]
    | some updated => simp [hs]

theorem foldl_bulkStep_decompose
    (srv : Int → TransactionUpdateBody → Option TransactionItem)
    (u : BulkUpdates) (allRows : List TransactionItem)
    (ids : List Int) (acc : BulkResult) :
    (ids.foldl (bulkStep srv u allRows) acc).pages =
      ids.foldl (pagesStep srv u allRows) acc.pages ∧
    (ids.foldl (bulkStep srv u allRows) acc).failed =
      acc.failed + (ids.filter (failPred srv u allRows)).length ∧
    (ids.foldl (bulkStep srv u allRows) acc).requests =
      acc.requests ++ ids.filterMap (requestOf u allRows) := by
  induction ids generalizing acc with
  | nil => simp
  | cons id rest ih =>
    obtain ⟨hp, hf, hr⟩ := bulkStep_decompose srv u allRows acc id
    obtain ⟨ihp, ihf, ihr⟩ := ih (bulkStep srv u allRows acc id)
    refine ⟨?_, ?_, ?_⟩
    · rw [List.foldl_cons, ihp, hp, List.foldl_cons]
    · rw [List.foldl_cons, ihf, hf]
      by_cases hfp : failPred srv u allRows id = true
      · simp [List.filter_cons, hfp]
        omega
      · simp only [Bool.not_eq_true] at hfp
        simp [List.filter_cons, hfp]
    · rw [List.foldl_cons, ihr, hr]
      cases hro : requestOf u allRows id with
      | none => simp [List.filterMap_cons, hro]
      | some req => simp [List.filterMap_cons, hro]

def selectionCleared (r : BulkResult) : Bool :=
  r.failed == 0

/-- The message set when some updates failed:
`` `${failed} transaction(s) failed to update` ``. -/
def bulkErrorMsg (r : BulkResult) : Option String :=
  if r.failed == 0 then none
  else some (toString r.failed ++ " transaction(s) failed to update")

/-- The claim's blank-means-keep rule for one field: the trimmed bulk
value when non-empty, otherwise the transaction's current value,
otherwise null. -/
def KeepSemantics (bulk : String) (cur : Option String)
    (sent : Option String) : Prop :=
  (jsTrim bulk ≠ "" → sent = some (jsTrim bulk)) ∧
  (jsTrim bulk = "" → ∀ c, cur = some c → c ≠ "" → sent = some c) ∧
  (jsTrim bulk = "" → (cur = none ∨ cur = some "") → sent = none)

theorem jsOrElse_keep (bulk : String) (cur : Option String) :
    KeepSemantics bulk cur (jsOrElse (jsTrim bulk) cur) := by
  refine ⟨?_, ?_, ?_⟩
  · intro h
    simp [jsOrElse, h]
  · intro h c hc hne
    simp [jsOrElse, h, hc, hne]
  · intro h hcur
    rcases hcur with hc | hc <;> simp [jsOrElse, h, hc]

theorem pagesStep_of_fail
    (srv : Int → TransactionUpdateBody → Option TransactionItem)
    (u : BulkUpdates) (allRows : List TransactionItem)
    (pg : List (List TransactionItem)) (id : Int)
    (h : failPred srv u allRows id = true) :
    pagesStep srv u allRows pg id = pg := by
  unfold pagesStep
  unfold failPred at h
  cases hf : allRows.find? (fun r => r.id == id) with
  | none => rfl
  | some tx =>
    rw [hf] at h
    simp only [Option.isNone_iff_eq_none] at h
    simp [h]

theorem bulk_no_undo
    (srv : Int → TransactionUpdateBody → Option TransactionItem)
    (u : BulkUpdates) (pages : List (List TransactionItem))
    (ids1 ids2 : List Int) (id : Int)
    (h : failPred srv u pages.flatten id = true) :
    (handleBulkApply srv u (ids1 ++ id :: ids2) pages).pages =
      (handleBulkApply srv u (ids1 ++ ids2) pages).pages := by
  unfold handleBulkApply
  rw [(foldl_bulkStep_decompose srv u pages.flatten (ids1 ++ id :: ids2) _).1,
    (foldl_bulkStep_decompose srv u pages.flatten (ids1 ++ ids2) _).1]
  rw [List.foldl_append, List.foldl_append, List.foldl_cons,
    pagesStep_of_fail srv u pages.flatten _ id h]

/-- C10: bulk edit semantics.  The body sent for each selected
transaction resends description and notes unchanged and applies
blank-means-keep (`KeepSemantics`) to merchant, category, subcategory
and card number; the updates are issued one per transaction, in
selection order, each built from the rows as loaded (`requests`); a
failing transaction leaves the pages exactly as they would be without
it, so earlier successful updates are not undone; the failure count is
the number of failing ids, the selection is cleared exactly when it is
zero, and otherwise the count is reported. -/
theorem bulk_edit_spec
    (srv : Int → TransactionUpdateBody → Option TransactionItem)
    (u : BulkUpdates) (ids : List Int)
    (pages : List (List TransactionItem)) (tx : TransactionItem) :
    ((bulkBody u tx).description = tx.description ∧
      (bulkBody u tx).notes = tx.notes ∧
      KeepSemantics u.merchant tx.merchant (bulkBody u tx).merchant_name ∧
      KeepSemantics u.category tx.category (bulkBody u tx).category ∧
      KeepSemantics u.subcategory tx.subcategory (bulkBody u tx).subcategory ∧
      KeepSemantics u.card_number tx.card_number (bulkBody u tx).card_number) ∧
    (handleBulkApply srv u ids pages).requests =
      ids.filterMap (requestOf u pages.flatten) ∧
    (handleBulkApply srv u ids pages).failed =
      (ids.filter (failPred srv u pages.flatten)).length ∧
    (∀ ids1 ids2 id, failPred srv u pages.flatten id = true →
      (handleBulkApply srv u (ids1 ++ id :: ids2) pages).pages =
        (handleBulkApply srv u (ids1 ++ ids2) pages).pages) ∧
    (selectionCleared (handleBulkApply srv u ids pages) = true ↔
      (ids.filter (failPred srv u pages.flatten)).length = 0) ∧
    bulkErrorMsg (handleBulkApply srv u ids pages) =
      (if (ids.filter (failPred srv u pages.flatten)).length = 0 then none
        else some (toString (ids.filter (failPred srv u pages.flatten)).length ++
          " transaction(s) failed to update")) := by
  have hd := foldl_bulkStep_decompose srv u pages.flatten ids
    { pages := pages, failed := 0, requests := [] }
  refine ⟨⟨rfl, rfl, jsOrElse_keep u.merchant tx.merchant,
      jsOrElse_keep u.category tx.category,
      jsOrElse_keep u.subcategory tx.subcategory,
      jsOrElse_keep u.card_number tx.card_number⟩, ?_, ?_, ?_, ?_, ?_⟩
  · simpa using hd.2.2
  · simpa using hd.2.1
  · exact fun ids1 ids2 id h => bulk_no_undo srv u pages ids1 ids2 id h
  · unfold selectionCleared handleBulkApply
    rw [show (ids.foldl (bulkStep srv u pages.flatten)
        { pages := pages, failed := 0, requests := [] }).failed =
      (ids.filter (failPred srv u pages.flatten)).length by simpa using hd.2.1]
    simp
  · unfold bulkErrorMsg handleBulkApply
    rw [show (ids.foldl (bulkStep srv u pages.flatten)
        { pages := pages, failed := 0, requests := [] }).failed =
      (ids.filter (failPred srv u pages.flatten)).length by simpa using hd.2.1]
    by_cases h0 : (ids.filter (failPred srv u pages.flatten)).length = 0
    · simp [h0]
    · simp [h0]

def bulkU : BulkUpdates :=
  { merchant := " SBUX ", category := "", subcategory := "", card_number := "" }

def bulkSrv : Int → TransactionUpdateBody → Option TransactionItem :=
  fun id b =>
    if id == 1 then some { sampleTx 1 with merchant := b.merchant_name }
    else none

/-- C10 witness: bulk value `" SBUX "` with blank category over a row
whose category is "Food": the body sends the trimmed merchant and keeps
the current category; over ids `[1, 2]` with a server failing on id 2,
the update of id 1 survives, one failure is counted, and the selection
is not cleared. -/
theorem bulk_edit_spec_witness :
    (bulkBody bulkU (sampleTx 1)).merchant_name = some "SBUX" ∧
    (bulkBody bulkU (sampleTx 1)).category = some "Food" ∧
    (handleBulkApply bulkSrv bulkU ([1] ++ 2 :: []) [[sampleTx 1, sampleTx 2]]).pages =
      (handleBulkApply bulkSrv bulkU ([1] ++ []) [[sampleTx 1, sampleTx 2]]).pages ∧
    (handleBulkApply bulkSrv bulkU [1, 2] [[sampleTx 1, sampleTx 2]]).failed = 1 ∧
    (selectionCleared (handleBulkApply bulkSrv bulkU [1, 2]
      [[sampleTx 1, sampleTx 2]]) = true ↔ False) := by
  have h := bulk_edit_spec bulkSrv bulkU [1, 2] [[sampleTx 1, sampleTx 2]]
    (sampleTx 1)
  refine ⟨(h.1.2.2.1.1 (by decide)).trans (by decide),
    (h.1.2.2.2.1.2.1 (by decide) "Food" rfl (by decide)), ?_, ?_, ?_⟩
  · exact h.2.2.2.1 [1] [] 2 (by decide)
  · exact h.2.2.1.trans (by decide)
  · rw [h.2.2.2.2.1]
    decide

/-! ## Recurring-charge detector

The detector itself lives in the Python backend
(`AnalyticsQueries.recurring` in budget/query.py), which is not among
the frontend sources; it is modelled here from the spec.  The result
row shape is the `RecurringItem` interface of types.ts: merchant,
frequency drawn from weekly / biweekly / monthly / quarterly / annual,
occurrences, last charge, estimated next charge, median amount and a
monthly-equivalent cost.  Dates are days since an epoch; money is ℚ.
-/

inductive Frequency where
  | weekly | biweekly | monthly | quarterly | annual
deriving DecidableEq, Repr

def Frequency.toName : Frequency → String
  | .weekly => "weekly"
  | .biweekly => "biweekly"
  | .monthly => "monthly"
  | .quarterly => "quarterly"
  | .annual => "annual"

def Frequency.periodDays : Frequency → Nat
  | .weekly => 7
  | .biweekly => 14
  | .monthly => 30
  | .quarterly => 91
  | .annual => 365

structure RecurringTx where
  merchant : Option String
  date : Nat
  amount : Rat
deriving DecidableEq, Repr

structure RecurringItem where
  merchant : String
  frequency : String
  occurrences : Nat
  last_charge : Nat
  next_estimated : Nat
  amount : Rat
  monthly_cost : Rat
deriving DecidableEq, Repr

def sortNat (l : List Nat) : List Nat :=
  List.insertionSort (· ≤ ·) l

def medianNat (l : List Nat) : Nat :=
  (sortNat l).getD (l.length / 2) 0

def sortRat (l : List Rat) : List Rat :=
  List.insertionSort (· ≤ ·) l

def medianRat (l : List Rat) : Rat :=
  (sortRat l).getD (l.length / 2) 0

/-- Gaps between consecutive (sorted) charge dates. -/
def gapsOf : List Nat → List Nat
  | [] => []
  | [_] => []
  | a :: b :: rest => (b - a) :: gapsOf (b :: rest)

def listMax (l : List Nat) : Nat :=
  l.foldr max 0

/-- Modelled from the spec: the periodicity inferred from the median
gap between consecutive charges (interval-clustering heuristic). -/
def classifyInterval (d : Nat) : Frequency :=
  if d ≤ 10 then .weekly
  else if d ≤ 20 then .biweekly
  else if d ≤ 45 then .monthly
  else if d ≤ 135 then .quarterly
  else .annual

/-- Modelled from the spec: the detector considers the charges — the
transactions with a negative amount (expenses are negative) and a
merchant. -/
def chargesOf (txs : List RecurringTx) : List RecurringTx :=
  txs.filter (fun t => decide (t.amount < 0) && t.merchant.isSome)

def merchantsOf (charges : List RecurringTx) : List String :=
  (charges.filterMap (fun t => t.merchant)).dedup

def bucketOf (charges : List RecurringTx) (m : String) : List RecurringTx :=
  charges.filter (fun t => t.merchant == some m)

/-- Modelled from the spec: the recurring item produced for one
merchant bucket — buckets with fewer than three charges are not
recurring; otherwise the median gap between the sorted charge dates
picks the frequency, the amount is the median absolute charge, and the
monthly-equivalent cost scales it by 30 over the period. -/
def itemFor (charges : List RecurringTx) (m : String) : Option RecurringItem :=
  let bucket := bucketOf charges m
  if bucket.length < 3 then none
  else
    let p := medianNat (gapsOf (sortNat (bucket.map (fun t => t.date))))
    let f := classifyInterval p
    let amt := medianRat (bucket.map (fun t => -t.amount))
    let last := listMax (bucket.map (fun t => t.date))
    some { merchant := m, frequency := f.toName,
           occurrences := bucket.length, last_charge := last,
           next_estimated := last + f.periodDays, amount := amt,
           monthly_cost := amt * 30 / (f.periodDays : Rat) }

/-- Modelled from the spec: the rule-based recurring-charge detector —
bucket the charges by merchant, keep the buckets that recur, infer a
periodicity per bucket. -/
def detectRecurring (txs : List RecurringTx) : List RecurringItem :=
  (merchantsOf (chargesOf txs)).filterMap (itemFor (chargesOf txs))

theorem itemFor_merchant (charges : List RecurringTx) (m : String)
    (item : RecurringItem) (h : itemFor charges m = some item) :
    item.merchant = m := by
  unfold itemFor at h
  by_cases hl : (bucketOf charges m).length < 3
  · simp [hl] at h
  · simp [hl] at h
    rw [← h]

theorem detectRecurring_merchants_nodup (txs : List RecurringTx) :
    ((detectRecurring txs).map (fun i => i.merchant)).Nodup := by
  unfold detectRecurring
  rw [List.map_filterMap]
  apply List.Nodup.filterMap
  · intro a a' b hb hb'
    cases hfa : itemFor (chargesOf txs) a with
    | none => simp [hfa] at hb
    | some item =>
      cases hfa' : itemFor (chargesOf txs) a' with
      | none => simp [hfa'] at hb'
      | some item' =>
        simp [hfa] at hb
        simp [hfa'] at hb'
        rw [← itemFor_merchant (chargesOf txs) a item hfa, hb,
          ← hb', itemFor_merchant (chargesOf txs) a' item' hfa']
  · exact List.nodup_dedup _

theorem medianRat_mem (l : List Rat) (h : l ≠ []) : medianRat l ∈ l := by
  unfold medianRat
  have hperm : (sortRat l).Perm l := List.perm_insertionSort _ l
  have hlen : (sortRat l).length = l.length := hperm.length_eq
  have hpos : 0 < l.length := List.length_pos.mpr h
  have hidx : l.length / 2 < (sortRat l).length := by
    rw [hlen]; omega
  rw [List.getD_eq_getElem _ _ hidx]
  exact hperm.mem_iff.mp (List.getElem_mem hidx)

theorem bucketOf_amount_pos (txs : List RecurringTx) (m : String)
    (t : RecurringTx) (h : t ∈ bucketOf (chargesOf txs) m) :
    0 < -t.amount := by
  unfold bucketOf at h
  have h1 := List.of_mem_filter h
  have h2 := List.mem_of_mem_filter h
  unfold chargesOf at h2
  have h3 := List.of_mem_filter h2
  simp at h3
  simpa using neg_pos.mpr h3.1

theorem frequency_toName_mem (f : Frequency) :
    f.toName ∈ ["weekly", "biweekly", "monthly", "quarterly", "annual"] := by
  cases f <;> simp [Frequency.toName]

theorem frequency_periodDays_pos (f : Frequency) : 0 < f.periodDays := by
  cases f <;> simp [Frequency.periodDays]

/-- C5: every item produced by the recurring-charge detector is keyed
by exactly one merchant (the merchant keys of the result are distinct),
carries a frequency drawn from weekly / biweekly / monthly / quarterly
/ annual, an occurrence count (at least the recurrence threshold of
three), the date of the last charge with an estimated next charge date
one period later, and a positive median amount with a positive
monthly-equivalent cost `amount * 30 / periodDays`. -/
theorem recurring_detector_spec (txs : List RecurringTx) :
    ((detectRecurring txs).map (fun i => i.merchant)).Nodup ∧
    ∀ item ∈ detectRecurring txs,
      item.frequency ∈ ["weekly", "biweekly", "monthly", "quarterly", "annual"] ∧
      3 ≤ item.occurrences ∧
      0 < item.amount ∧
      0 < item.monthly_cost ∧
      ∃ f : Frequency, item.frequency = f.toName ∧
        item.next_estimated = item.last_charge + f.periodDays ∧
        item.monthly_cost = item.amount * 30 / (f.periodDays : Rat) := by
  refine ⟨detectRecurring_merchants_nodup txs, ?_⟩
  intro item hmem
  unfold detectRecurring at hmem
  rw [List.mem_filterMap] at hmem
  obtain ⟨m, _, hsome⟩ := hmem
  unfold itemFor at hsome
  by_cases hl : (bucketOf (chargesOf txs) m).length < 3
  · simp [hl] at hsome
  · simp only [hl, if_neg, not_false_iff, Option.some_inj] at hsome
    have hne : (bucketOf (chargesOf txs) m).map (fun t => -t.amount) ≠ [] := by
      intro hc
      rw [List.map_eq_nil_iff] at hc
      rw [hc] at hl
      simp at hl
    have hamt : 0 < medianRat
        ((bucketOf (chargesOf txs) m).map (fun t => -t.amount)) := by
      have hmm := medianRat_mem _ hne
      rw [List.mem_map] at hmm
      obtain ⟨t, ht, heq⟩ := hmm
      rw [← heq]
      exact bucketOf_amount_pos txs m t ht
    subst hsome
    refine ⟨frequency_toName_mem _, Nat.le_of_not_lt hl, hamt, ?_, ?_⟩
    · apply div_pos (mul_pos hamt (by norm_num))
      exact_mod_cast frequency_periodDays_pos _
    · exact ⟨_, rfl, rfl, rfl⟩

def netflixTx (d : Nat) : RecurringTx :=
  { merchant := some "Netflix", date := d, amount := -10 }

/-- Three monthly Netflix charges of -10 on days 0, 30 and 60. -/
def recurringSample : List RecurringTx :=
  [netflixTx 0, netflixTx 30, netflixTx 60,
    { merchant := none, date := 10, amount := -3 },
    { merchant := some "Employer", date := 15, amount := 2000 }]

def netflixItem : RecurringItem where
  merchant := "Netflix"
  frequency := "monthly"
  occurrences := 3
  last_charge := 60
  next_estimated := 90
  amount := 10
  monthly_cost := 10

theorem bucket_netflix :
    bucketOf (chargesOf recurringSample) "Netflix" =
      [netflixTx 0, netflixTx 30, netflixTx 60] := by
  decide

theorem itemFor_netflix :
    itemFor (chargesOf recurringSample) "Netflix" = some netflixItem := by
  have hmed : medianNat (gapsOf (sortNat
      (([netflixTx 0, netflixTx 30, netflixTx 60] : List RecurringTx).map
        (fun t => t.date)))) = 30 := by decide
  have hamt : medianRat
      (([netflixTx 0, netflixTx 30, netflixTx 60] : List RecurringTx).map
        (fun t => -t.amount)) = 10 := by decide
  have hmax : listMax
      (([netflixTx 0, netflixTx 30, netflixTx 60] : List RecurringTx).map
        (fun t => t.date)) = 60 := by decide
  simp only [itemFor, bucket_netflix, hmed, hamt, hmax]
  rw [if_neg (by decide :
    ¬ ([netflixTx 0, netflixTx 30, netflixTx 60] : List RecurringTx).length < 3)]
  have hclass : classifyInterval 30 = Frequency.monthly := by decide
  rw [hclass]
  simp only [netflixItem, Frequency.toName, Frequency.periodDays,
    Option.some_inj]
  refine RecurringItem.mk.injEq .. ▸ ?_
  norm_num

theorem detect_netflix : detectRecurring recurringSample = [netflixItem] := by
  have hm : merchantsOf (chargesOf recurringSample) = ["Netflix"] := by
    decide
  unfold detectRecurring
  rw [hm]
  simp [List.filterMap_cons, itemFor_netflix]

/-- C5 witness: on the sample, the detector returns exactly one item,
for Netflix, classified monthly with three occurrences, last charge on
day 60, next estimated on day 90, amount 10 and monthly cost 10. -/
theorem recurring_detector_spec_witness :
    detectRecurring recurringSample = [netflixItem] ∧
    (0 : Rat) < netflixItem.monthly_cost ∧
    netflixItem.frequency ∈
      ["weekly", "biweekly", "monthly", "quarterly", "annual"] := by
  have hmem : netflixItem ∈ detectRecurring recurringSample := by
    rw [detect_netflix]
    exact List.mem_singleton.mpr rfl
  exact ⟨detect_netflix,
    ((recurring_detector_spec recurringSample).2 netflixItem hmem).2.2.2.1,
    ((recurring_detector_spec recurringSample).2 netflixItem hmem).1⟩

/-! ## CSV import and background enrichment

The import endpoint and the enrichment task live in the Python backend
(budget/main.py, budget/ai.py), which is not among the frontend
sources; they are modelled here from the spec and the repository's
notes (enrichment runs as a background task in batches of 50 with up to
three attempts per batch).  The response and progress shapes are the
`ImportCsvResponse` and `ImportProgress` interfaces of types.ts;
`ImportCsvResponse.status` has the literal type `"processing"`.
-/

structure ImportCsvResponse where
  csv_import_id : Int
  filename : String
  rows_imported : Nat
  status : String
deriving DecidableEq, Repr

structure ImportProgress where
  csv_import_id : Int
  row_count : Nat
  enriched_rows : Nat
  complete : Bool
deriving DecidableEq, Repr

structure EnrichJob where
  row_count : Nat
  enriched_rows : Nat
deriving DecidableEq, Repr

def batchSize : Nat := 50

def maxAttempts : Nat := 3

/-- Modelled from the spec: the backend `POST /import-csv` handler
(budget/main.py, not under src/) stores the rows, schedules the
background enrichment task, and responds at once with status
"processing". -/
def importCsvResult (importId : Int) (filename : String)
    (rows : Nat) : ImportCsvResponse :=
  { csv_import_id := importId, filename := filename,
    rows_imported := rows, status := "processing" }

/-- Modelled from the spec: one batch of the background enrichment task
classifies up to `batchSize` of the remaining rows through the hosted
AI model; the call is retried up to `maxAttempts` times, so the batch
completes whenever it fails fewer than `maxAttempts` times and is
abandoned otherwise. -/
def stepBatch (failures : Nat) (j : EnrichJob) : EnrichJob :=
  if failures < maxAttempts then
    { j with enriched_rows := min j.row_count (j.enriched_rows + batchSize) }
  else j

/-- Modelled from the spec: the background task runs batch after batch;
`fails` lists the number of failed attempts of each batch run. -/
def runJob (fails : List Nat) (j : EnrichJob) : EnrichJob :=
  fails.foldl (fun j f => stepBatch f j) j

/-- Modelled from the spec: the `GET /imports/{id}/progress` payload —
`enriched_rows` out of `row_count`, complete when every row has been
classified. -/
def progressOf (importId : Int) (j : EnrichJob) : ImportProgress :=
  { csv_import_id := importId, row_count := j.row_count,
    enriched_rows := j.enriched_rows,
    complete := j.enriched_rows == j.row_count }

theorem stepBatch_bounds (j : EnrichJob) (f : Nat)
    (h : j.enriched_rows ≤ j.row_count) :
    (stepBatch f j).row_count = j.row_count ∧
    j.enriched_rows ≤ (stepBatch f j).enriched_rows ∧
    (stepBatch f j).enriched_rows ≤ j.row_count := by
  unfold stepBatch
  split
  · refine ⟨rfl, ?_, ?_⟩
    · show j.enriched_rows ≤ min j.row_count (j.enriched_rows + batchSize)
      omega
    · show min j.row_count (j.enriched_rows + batchSize) ≤ j.row_count
      omega
  · exact ⟨rfl, Nat.le_refl _, h⟩

theorem runJob_complete (n : Nat) (j : EnrichJob)
    (h1 : j.enriched_rows ≤ j.row_count)
    (h2 : j.row_count - j.enriched_rows ≤ n * batchSize) :
    (runJob (List.replicate n 0) j).enriched_rows = j.row_count ∧
    (runJob (List.replicate n 0) j).row_count = j.row_count := by
  induction n generalizing j with
  | zero =>
    simp only [List.replicate_zero, runJob, List.foldl_nil]
    exact ⟨by omega, trivial⟩
  | succ n ih =>
    have hs : stepBatch 0 j =
        { j with enriched_rows := min j.row_count (j.enriched_rows + batchSize) } := by
      unfold stepBatch maxAttempts
      simp
    have hrun : runJob (List.replicate (n + 1) 0) j =
        runJob (List.replicate n 0) (stepBatch 0 j) := by
      rw [List.replicate_succ]
      rfl
    rw [hrun, hs]
    exact ih { j with enriched_rows := min j.row_count (j.enriched_rows + batchSize) }
      (by simp) (by simp [batchSize] at h2 ⊢; omega)

/-- C7: the enrichment pipeline contract.  A successful CSV import
responds with status "processing"; per-import progress exposes
`enriched_rows` out of `row_count` and its `complete` flag is true
exactly when every row has been classified; a batch whose AI call fails
fewer than `maxAttempts` times still advances the job (retries) while
an abandoned batch leaves it unchanged, enrichment never exceeds
`row_count`, and after enough batches (⌈rows / 50⌉ successful runs) the
progress of the job reports complete. -/
theorem import_enrichment_spec :
    (∀ (importId : Int) (filename : String) (rows : Nat),
      (importCsvResult importId filename rows).status = "processing") ∧
    (∀ (importId : Int) (j : EnrichJob),
      (progressOf importId j).row_count = j.row_count ∧
      (progressOf importId j).enriched_rows = j.enriched_rows ∧
      ((progressOf importId j).complete = true ↔
        j.enriched_rows = j.row_count)) ∧
    (∀ (j : EnrichJob) (f : Nat), j.enriched_rows ≤ j.row_count →
      j.enriched_rows ≤ (stepBatch f j).enriched_rows ∧
      (stepBatch f j).enriched_rows ≤ j.row_count) ∧
    (∀ (j : EnrichJob) (f : Nat), f < maxAttempts →
      j.enriched_rows < j.row_count →
      j.enriched_rows < (stepBatch f j).enriched_rows) ∧
    (∀ (j : EnrichJob) (f : Nat), maxAttempts ≤ f → stepBatch f j = j) ∧
    (∀ (importId : Int) (n : Nat) (j : EnrichJob),
      j.enriched_rows ≤ j.row_count →
      j.row_count - j.enriched_rows ≤ n * batchSize →
      (progressOf importId (runJob (List.replicate n 0) j)).complete = true) := by
  refine ⟨fun _ _ _ => rfl, ?_, ?_, ?_, ?_, ?_⟩
  · intro importId j
    refine ⟨rfl, rfl, ?_⟩
    simp [progressOf]
  · intro j f h
    exact ⟨(stepBatch_bounds j f h).2.1, (stepBatch_bounds j f h).2.2⟩
  · intro j f hf h
    unfold stepBatch
    rw [if_pos hf]
    simp [batchSize]
    omega
  · intro j f hf
    unfold stepBatch
    rw [if_neg (by omega)]
  · intro importId n j h1 h2
    have hr := runJob_complete n j h1 h2
    simp [progressOf, hr.1, hr.2]

/-- C7 witness: an import of 120 rows responds "processing"; from a
fresh job, three successful batches of 50 classify all 120 rows and the
progress reports complete; a batch whose call failed twice still
advances the job. -/
theorem import_enrichment_spec_witness :
    (importCsvResult 7 "bank.csv" 120).status = "processing" ∧
    (progressOf 7 (runJob (List.replicate 3 0) ⟨120, 0⟩)).complete = true ∧
    (0 : Nat) < (stepBatch 2 ⟨120, 0⟩).enriched_rows ∧
    stepBatch 5 ⟨120, 0⟩ = ⟨120, 0⟩ := by
  refine ⟨import_enrichment_spec.1 7 "bank.csv" 120, ?_, ?_, ?_⟩
  · exact import_enrichment_spec.2.2.2.2.2 7 3 ⟨120, 0⟩ (by decide) (by decide)
  · exact import_enrichment_spec.2.2.2.1 ⟨120, 0⟩ 2 (by decide) (by decide)
  · exact import_enrichment_spec.2.2.2.2.1 ⟨120, 0⟩ 5 (by decide)

end Budget
